import Mathlib

/-!
# Verification of `src/client/renderingengine.h`

A shallow embedding of the inline code of the rendering engine header:
the frame pacer `FpsControl`, the static accessors of `RenderingEngine`
and the menu starfield (`generateMenuStars`, `drawMenuStars`).

Conventions of the embedding:

* `f32` / `double` values are elements of a linearly ordered field `α` with a
  floor function (`ℚ` for evaluation, `ℝ` for the statements about π and the
  true sine).  The result of every `f32` operation and of every conversion to
  `f32` passes through a rounding function `fl : α → α`, the first argument of
  the operations below.  Two roundings are used: `binary32`, round to nearest
  with ties to even on the IEEE 754 single-precision grid, which is the
  arithmetic the code runs in (each operation rounded on its own: no fused
  multiply-add, no excess precision); and `id`, exact arithmetic.  The literals
  `0.5f`, `2`, `64`, `128` and `1.0f` are binary32 values and are written
  without rounding.  Overflow to infinity and NaN are not represented.
  `std::sin` is a parameter `sin`.
* `u32` / `u64` values are natural numbers, `s32` values are integers.  A
  conversion `(s32)f` is truncation toward zero; results are kept as
  mathematical integers (a conversion or a signed addition that leaves the
  `s32` range has no defined behaviour in C++).
* `rand()` is a sequence `rand : ℕ → ℕ`: `rand k` is the value returned by
  the `k`-th call made during the operation.  It is a non-negative `int`, so
  its conversion to `u32` in `rand() % size.X` preserves the value.
* a pointer is an `Option`; `nullptr` is `none`.
* a call that does not return normally reports a `Fault`.
-/

namespace RenderingEngineSpec

/-! ## Faults -/

/-- The ways a call can fail to return: `abort` is a failed `sanity_check`,
`undefined` an integer remainder by zero or a null dereference. -/
inductive Fault where
  | abort
  | undefined
deriving DecidableEq, Repr

/-- Modelled from the spec: the macro `sanity_check` of `debug.h`, which is not
part of the sources at hand; section 7 describes it as a fail-fast invariant
check, "aborting if required state — singleton or device — is missing". -/
def sanity_check (expr : Bool) : Except Fault Unit :=
  if expr then .ok () else .error Fault.abort

/-! ## Frame pacer -/

/-- The struct `FpsControl`; all values in microseconds, of type `u64`. -/
structure FpsControl where
  last_time : ℕ
  busy_time : ℕ
  sleep_time : ℕ
deriving DecidableEq, Repr

namespace FpsControl

/-- The constructor `FpsControl() : last_time(0), busy_time(0), sleep_time(0)`. -/
def new : FpsControl := ⟨0, 0, 0⟩

/-- The method `u32 getBusyMs() const { return busy_time / 1000; }`: the `u64`
quotient is converted to the `u32` return type. -/
def getBusyMs (self : FpsControl) : ℕ := (self.busy_time / 1000) % 2 ^ 32

end FpsControl

/-! ## Data of the rendering engine -/

/-- The type `v2u32`: a pair of `u32`. -/
structure v2u32 where
  X : ℕ
  Y : ℕ
deriving DecidableEq, Repr

/-- The type `core::vector3d<f32>`. -/
structure vector3d (α : Type) where
  X : α
  Y : α
  Z : α
deriving DecidableEq

/-- A handle of a `video::IVideoDriver` object. -/
abbrev IVideoDriver := ℕ

/-- A handle of a `ShadowRenderer` object. -/
abbrev ShadowRenderer := ℕ

/-- The value of an enumeration `PointerType` of `client/inputhandler.h`. -/
abbrev PointerType := ℕ

/-- An `IrrlichtDevice` object: its identity and what `getVideoDriver()` returns. -/
structure IrrlichtDevice where
  id : ℕ
  getVideoDriver : Option IVideoDriver
deriving DecidableEq, Repr

/-- A `RenderingCore` object: what `get_shadow_renderer()` returns. -/
structure RenderingCore where
  get_shadow_renderer : Option ShadowRenderer
deriving DecidableEq, Repr

/-- A `MyEventReceiver` object: what `getLastPointerType()` returns. -/
structure MyEventReceiver where
  getLastPointerType : PointerType
deriving DecidableEq, Repr

/-- The members of a `RenderingEngine` object that the inline code reads or
writes.  `_getWindowSize` stands for the result of the private method of that
name, which is defined outside the header. -/
structure RenderingEngine (α : Type) where
  _getWindowSize : v2u32
  core : Option RenderingCore
  m_device : Option IrrlichtDevice
  m_receiver : Option MyEventReceiver
  m_menu_stars : List (vector3d α)
  m_menu_stars_enabled : Bool

/-! ## Static accessors

Each takes the value of the static member `s_singleton`. -/

/-- The accessor `static v2u32 getWindowSize()`. -/
def getWindowSize {α : Type} (s_singleton : Option (RenderingEngine α)) :
    Except Fault v2u32 :=
  match sanity_check s_singleton.isSome with
  | .error f => .error f
  | .ok _ =>
    match s_singleton with
    | none => .error Fault.undefined
    | some e => .ok e._getWindowSize

/-- The accessor `static video::IVideoDriver *get_video_driver()`. -/
def get_video_driver {α : Type} (s_singleton : Option (RenderingEngine α)) :
    Except Fault (Option IVideoDriver) :=
  match sanity_check
      (match s_singleton with
       | none => false
       | some e => e.m_device.isSome) with
  | .error f => .error f
  | .ok _ =>
    match s_singleton with
    | none => .error Fault.undefined
    | some e =>
      match e.m_device with
      | none => .error Fault.undefined
      | some d => .ok d.getVideoDriver

/-- The accessor `static IrrlichtDevice *get_raw_device()`. -/
def get_raw_device {α : Type} (s_singleton : Option (RenderingEngine α)) :
    Except Fault (Option IrrlichtDevice) :=
  match sanity_check
      (match s_singleton with
       | none => false
       | some e => e.m_device.isSome) with
  | .error f => .error f
  | .ok _ =>
    match s_singleton with
    | none => .error Fault.undefined
    | some e => .ok e.m_device

/-- The accessor `static ShadowRenderer *get_shadow_renderer()`: no sanity
check, a null singleton or a null core gives `nullptr`. -/
def get_shadow_renderer {α : Type} (s_singleton : Option (RenderingEngine α)) :
    Except Fault (Option ShadowRenderer) :=
  match s_singleton with
  | none => .ok none
  | some e =>
    match e.core with
    | none => .ok none
    | some c => .ok c.get_shadow_renderer

/-- The accessor `static PointerType getLastPointerType()`. -/
def getLastPointerType {α : Type} (s_singleton : Option (RenderingEngine α)) :
    Except Fault PointerType :=
  match sanity_check
      (match s_singleton with
       | none => false
       | some e => e.m_receiver.isSome) with
  | .error f => .error f
  | .ok _ =>
    match s_singleton with
    | none => .error Fault.undefined
    | some e =>
      match e.m_receiver with
      | none => .error Fault.undefined
      | some r => .ok r.getLastPointerType

/-! ## Rounding -/

section Rounding

variable {α : Type}

/-- Rounding to the nearest integer, ties to the even one. -/
def roundHalfEven [LinearOrderedField α] [FloorRing α] (q : α) : ℤ :=
  if 2 * (q - (⌊q⌋ : α)) < 1 then ⌊q⌋
  else if 1 < 2 * (q - (⌊q⌋ : α)) then ⌊q⌋ + 1
  else if ⌊q⌋ % 2 = 0 then ⌊q⌋ else ⌊q⌋ + 1

/-- The `f32` (IEEE 754 binary32) value nearest to `q`, ties to even: with `e`
the binary exponent of `|q|`, not below the least normal exponent -126, the
multiple of `2^(e-23)` nearest to `q`. -/
def binary32 [LinearOrderedField α] [FloorRing α] (q : α) : α :=
  (roundHalfEven (q / (2 : α) ^ (max (Int.log 2 |q|) (-126) - 23)) : α) *
    (2 : α) ^ (max (Int.log 2 |q|) (-126) - 23)

/-- What the proofs below use of a rounding: it is monotone, and it leaves the
values `m * 2^k` with `|m| < 2^24` and `-149 ≤ k` (the binary32 values)
unchanged. -/
def IsRounding [LinearOrderedField α] (fl : α → α) : Prop :=
  Monotone fl ∧
    ∀ m k : ℤ, |m| < 16777216 → -149 ≤ k → fl ((m : α) * (2 : α) ^ k) = (m : α) * (2 : α) ^ k

end Rounding

/-! ## Menu stars -/

section Stars

variable {α : Type}

/-- The constant `M_PI` of `<cmath>`, as the `double` it denotes
(`0x1.921fb54442d18p+1`, that is 884279719003555 / 2^48). -/
def M_PI [LinearOrderedField α] : α := 884279719003555 / 281474976710656

/-- The conversion `(s32)f` of a floating-point value: truncation toward zero. -/
def to_s32 [LinearOrderedField α] [FloorRing α] (f : α) : ℤ := if 0 ≤ f then ⌊f⌋ else ⌈f⌉

/-- The conversion of a floating-point value to `u32` (an argument of type
`u32` receiving an `f32`): truncation toward zero, reduced modulo 2^32. -/
def to_u32 [LinearOrderedField α] [FloorRing α] (f : α) : ℕ := (to_s32 f % 4294967296).toNat

/-- The arguments of a constructor call `video::SColor(a, r, g, b)`, each of
type `u32`. -/
structure SColor where
  a : ℕ
  r : ℕ
  g : ℕ
  b : ℕ
deriving DecidableEq, Repr

/-- The arguments `(x, y, x2, y2)` of a constructor call `core::rect<s32>`:
upper-left corner `(x, y)`, lower-right corner `(x2, y2)`. -/
structure rect where
  x : ℤ
  y : ℤ
  x2 : ℤ
  y2 : ℤ
deriving DecidableEq, Repr

/-- The width of a rectangle: `LowerRightCorner.X - UpperLeftCorner.X`. -/
def rect.getWidth (self : rect) : ℤ := self.x2 - self.x

/-- The height of a rectangle: `LowerRightCorner.Y - UpperLeftCorner.Y`. -/
def rect.getHeight (self : rect) : ℤ := self.y2 - self.y

/-- One call `driver->draw2DRectangle(color, pos)`. -/
structure DrawCall where
  color : SColor
  pos : rect
deriving DecidableEq, Repr

/-- The body of the loop of `generateMenuStars` at iteration `i`: three calls
of `rand()`, the `3 * i`-th and the two after it.  A remainder by a zero
window dimension is a fault.  In `rand() % size.X * scale_x` the `u32`
remainder is converted to `f32` and the product is rounded; likewise for the
other two members. -/
def generateStar [LinearOrderedField α] (fl : α → α) (size : v2u32) (scale_x scale_y : α)
    (rand : ℕ → ℕ) (i : ℕ) : Except Fault (vector3d α) :=
  if size.X = 0 then .error Fault.undefined
  else
    let x : α := fl (fl ((rand (3 * i) % size.X : ℕ) : α) * scale_x)
    if size.Y = 0 then .error Fault.undefined
    else
      let y : α := fl (fl ((rand (3 * i + 1) % size.Y : ℕ) : α) * scale_y)
      let star_size : α := fl (fl ((rand (3 * i + 2) % 8 + 4 : ℕ) : α) * fl 0.0004)
      .ok ⟨x, y, star_size⟩

/-- The loop `for (int i = 0; i < 96; i++)` of `generateMenuStars`, with `n`
iterations left, the counter at `i` and the stars pushed so far.  Returns the
collection and the fault that stopped the loop, if any. -/
def generateLoop [LinearOrderedField α] (fl : α → α) (size : v2u32) (scale_x scale_y : α)
    (rand : ℕ → ℕ) : ℕ → ℕ → List (vector3d α) → List (vector3d α) × Option Fault
  | 0, _, stars => (stars, none)
  | n + 1, i, stars =>
    match generateStar fl size scale_x scale_y rand i with
    | .error f => (stars, some f)
    | .ok star => generateLoop fl size scale_x scale_y rand n (i + 1) (stars ++ [star])

/-- The method `void generateMenuStars()`: the engine after the call and the
fault that ended it, if any.  `1.0f / size.X` converts the `u32` to `f32` and
rounds the quotient. -/
def generateMenuStars [LinearOrderedField α] (fl : α → α)
    (s_singleton : Option (RenderingEngine α)) (rand : ℕ → ℕ)
    (self : RenderingEngine α) : RenderingEngine α × Option Fault :=
  match getWindowSize s_singleton with
  | .error f => (self, some f)
  | .ok size =>
    let scale_x : α := fl (1 / fl (size.X : α))
    let scale_y : α := fl (1 / fl (size.Y : α))
    let r := generateLoop fl size scale_x scale_y rand 96 0 []
    ({ self with m_menu_stars := r.1 }, r.2)

/-- The local `seed` of the loop of `drawMenuStars`:
`(x * 12.9898f) + (y * 78.233f)`. -/
def starSeed [LinearOrderedField α] (fl : α → α) (x y : ℤ) : α :=
  fl (fl (fl (x : α) * fl 12.9898) + fl (fl (y : α) * fl 78.233))

/-- The local `brightness` of the loop of `drawMenuStars`:
`128 * (std::sin(star_time + seed) / 2 + 0.5f)`. -/
def starBrightness [LinearOrderedField α] (fl : α → α) (sin : α → α) (star_time : α)
    (x y : ℤ) : α :=
  fl (128 * fl (fl (sin (fl (star_time + starSeed fl x y)) / 2) + 0.5))

/-- The body of the loop of `drawMenuStars`: the draw call issued for `star`. -/
def drawStar [LinearOrderedField α] [FloorRing α] (fl : α → α) (sin : α → α) (star_time : α)
    (window_size : v2u32) (star : vector3d α) : DrawCall :=
  let x : ℤ := to_s32 (fl (star.X * fl (window_size.X : α)))
  let y : ℤ := to_s32 (fl (star.Y * fl (window_size.Y : α)))
  let size : ℤ := to_s32 (fl (star.Z * fl (window_size.Y : α)))
  let size : ℤ := if size < 1 then 1 else size
  let brightness : α := starBrightness fl sin star_time x y
  { color := ⟨to_u32 (fl (brightness + 64)), 255, 255, 255⟩
    pos := ⟨x, y, x + size, y + size⟩ }

/-- The first statements of `drawMenuStars`: `star_time += dtime;
if (star_time > M_PI * 2) star_time = 0.0f;`.  The sum is an `f32`; the
comparison is made in `double`, where both sides are exact. -/
def advanceStarTime [LinearOrderedField α] (fl : α → α) (star_time dtime : α) : α :=
  let star_time := fl (star_time + dtime)
  if star_time > M_PI * 2 then 0 else star_time

/-- What a call of `drawMenuStars` leaves behind: the engine, the function-local
static `star_time`, the `draw2DRectangle` calls issued in order, and the fault
that ended the call, if any. -/
structure DrawResult (α : Type) where
  self : RenderingEngine α
  star_time : α
  calls : List DrawCall
  fault : Option Fault

/-- The method `void drawMenuStars(video::IVideoDriver *driver, float dtime)`,
run on the engine `self` with the static `star_time`. -/
def drawMenuStars [LinearOrderedField α] [FloorRing α] (fl : α → α) (sin : α → α)
    (s_singleton : Option (RenderingEngine α))
    (rand : ℕ → ℕ) (self : RenderingEngine α) (star_time : α)
    (driver : Option IVideoDriver) (dtime : α) : DrawResult α :=
  let star_time := advanceStarTime fl star_time dtime
  if !self.m_menu_stars_enabled then ⟨self, star_time, [], none⟩
  else
    match driver with
    | none => ⟨self, star_time, [], none⟩
    | some _ =>
      let gen : RenderingEngine α × Option Fault :=
        if self.m_menu_stars.isEmpty then generateMenuStars fl s_singleton rand self
        else (self, none)
      match gen.2 with
      | some f => ⟨gen.1, star_time, [], some f⟩
      | none =>
        match getWindowSize s_singleton with
        | .error f => ⟨gen.1, star_time, [], some f⟩
        | .ok window_size =>
          ⟨gen.1, star_time,
            gen.1.m_menu_stars.map (drawStar fl sin star_time window_size), none⟩

/-- One call of `drawMenuStars` in a run of the program: its arguments, the
singleton and the values `rand()` would return at that time. -/
structure Frame (α : Type) where
  s_singleton : Option (RenderingEngine α)
  rand : ℕ → ℕ
  driver : Option IVideoDriver
  dtime : α

/-- A sequence of calls of `drawMenuStars` on one engine; a call that faults
ends the run.  Returns the engine and the static `star_time` reached. -/
def runFrames [LinearOrderedField α] [FloorRing α] (fl : α → α) (sin : α → α) :
    List (Frame α) → RenderingEngine α → α → RenderingEngine α × α
  | [], self, star_time => (self, star_time)
  | f :: fs, self, star_time =>
    let r := drawMenuStars fl sin f.s_singleton f.rand self star_time f.driver f.dtime
    match r.fault with
    | some _ => (r.self, r.star_time)
    | none => runFrames fl sin fs r.self r.star_time

end Stars

/-! ## Concrete inputs used by the evaluations below -/

/-- An engine with an 800 x 600 window, no stars yet, stars enabled. -/
def exampleEngine : RenderingEngine ℚ :=
  { _getWindowSize := ⟨800, 600⟩
    core := none
    m_device := none
    m_receiver := none
    m_menu_stars := []
    m_menu_stars_enabled := true }

/-- The engine `exampleEngine` with the menu stars switched off. -/
def exampleEngineOff : RenderingEngine ℚ :=
  { exampleEngine with m_menu_stars_enabled := false }

/-- The engine `exampleEngine` holding one star, of normalized size zero. -/
def exampleEngineOneStar : RenderingEngine ℚ :=
  { exampleEngine with m_menu_stars := [⟨1 / 2, 1 / 4, 0⟩] }

/-- The engine `exampleEngine` in a window of width zero. -/
def exampleEngineZeroWidth : RenderingEngine ℚ :=
  { exampleEngine with _getWindowSize := ⟨0, 600⟩ }

/-- The engine `exampleEngine` in a window of height zero. -/
def exampleEngineZeroHeight : RenderingEngine ℚ :=
  { exampleEngine with _getWindowSize := ⟨800, 0⟩ }

/-- A sequence of `rand()` values (a linear congruential generator). -/
def exampleRand : ℕ → ℕ := fun k => (1103515245 * k + 12345) % 2147483648

/-- A stand-in for `std::sin` in evaluations over `ℚ` (the constant zero). -/
def exampleSin : ℚ → ℚ := fun _ => 0

/-! ## The brightness formula of the specification -/

/-- The brightness of a star as the specification words it (section 4.2):
`128 * (sin(time + seed)/2 + 0.5)` with seed `x*12.9898 + y*78.233`, written
as the single expression `128 * (sin(t + x*12.9898 + y*78.233) / 2 + 0.5)`. -/
def specBrightness {α : Type} [LinearOrderedField α] (sin : α → α) (t : α) (x y : ℤ) : α :=
  128 * (sin (t + (x : α) * 12.9898 + (y : α) * 78.233) / 2 + 0.5)

/-! ## Lemmas on rounding -/

section RoundingLemmas

variable {α : Type}

theorem roundHalfEven_intCast [LinearOrderedField α] [FloorRing α] (n : ℤ) :
    roundHalfEven (n : α) = n := by
  simp [roundHalfEven]

theorem roundHalfEven_mono [LinearOrderedField α] [FloorRing α] {a b : α} (h : a ≤ b) :
    roundHalfEven a ≤ roundHalfEven b := by
  have hfa := Int.floor_le a
  have hfa2 := Int.lt_floor_add_one a
  have hfb := Int.floor_le b
  have hfb2 := Int.lt_floor_add_one b
  have hfl : ⌊a⌋ ≤ ⌊b⌋ := Int.floor_mono h
  rcases eq_or_lt_of_le hfl with heq | hlt
  · -- same floor
    unfold roundHalfEven
    rw [heq] at hfa hfa2 ⊢
    split_ifs <;> first | omega | (exfalso; linarith)
  · have h1 : ⌊a⌋ + 1 ≤ ⌊b⌋ := hlt
    have ha : roundHalfEven a ≤ ⌊a⌋ + 1 := by
      unfold roundHalfEven
      split_ifs <;> omega
    have hb : ⌊b⌋ ≤ roundHalfEven b := by
      unfold roundHalfEven
      split_ifs <;> omega
    omega

theorem roundHalfEven_of_near [LinearOrderedField α] [FloorRing α] (q : α) (n : ℤ)
    (h : 2 * |q - (n : α)| < 1) : roundHalfEven q = n := by
  have habs := abs_lt.mp (by linarith : |q - (n : α)| < 1 / 2)
  by_cases hq : (n : α) ≤ q
  · have hfl : ⌊q⌋ = n := by
      rw [Int.floor_eq_iff]
      constructor
      · exact hq
      · linarith [habs.2]
    unfold roundHalfEven
    rw [hfl]
    have : 2 * (q - (n : α)) < 1 := by linarith [habs.2]
    simp [this]
  · have hq2 : q < (n : α) := not_le.mp hq
    have hfl : ⌊q⌋ = n - 1 := by
      rw [Int.floor_eq_iff]
      push_cast
      constructor
      · linarith [habs.1]
      · linarith
    unfold roundHalfEven
    rw [hfl]
    push_cast
    have h1 : ¬ 2 * (q - ((n : α) - 1)) < 1 := by
      rw [not_lt]; linarith [habs.1]
    have h2 : 1 < 2 * (q - ((n : α) - 1)) := by linarith [habs.1]
    simp [h1, h2]

theorem two_zpow_pos [LinearOrderedField α] (k : ℤ) : (0 : α) < (2 : α) ^ k :=
  zpow_pos (by norm_num) k

/-- The exponent of the binade of a non-zero value. -/
theorem log_two_eq [LinearOrderedField α] [FloorRing α] (r : α) (e : ℤ)
    (h1 : (2 : α) ^ e ≤ r) (h2 : r < (2 : α) ^ (e + 1)) : Int.log 2 r = e := by
  have hr : 0 < r := lt_of_lt_of_le (two_zpow_pos e) h1
  have a : e ≤ Int.log 2 r := by
    rw [← Int.zpow_le_iff_le_log (by norm_num) hr]
    simpa using h1
  have b : Int.log 2 r < e + 1 := by
    rw [← Int.lt_zpow_iff_log_lt (by norm_num) hr]
    simpa using h2
  omega

theorem binary32_eval [LinearOrderedField α] [FloorRing α] (q : α) (e n : ℤ) (he : -126 ≤ e)
    (h1 : (2 : α) ^ e ≤ |q|) (h2 : |q| < (2 : α) ^ (e + 1))
    (hn : roundHalfEven (q / (2 : α) ^ (e - 23)) = n) :
    binary32 q = (n : α) * (2 : α) ^ (e - 23) := by
  unfold binary32
  rw [log_two_eq |q| e h1 h2, max_eq_left he, hn]

theorem binary32_zero [LinearOrderedField α] [FloorRing α] : binary32 (0 : α) = 0 := by
  simp [binary32, roundHalfEven]

/-- The general binade facts: with `e` the exponent used for `q`,
`|q| < 2^(e+1)`, and `2^e ≤ |q|` when the exponent is not clamped. -/
theorem binade_upper [LinearOrderedField α] [FloorRing α] (q : α) :
    |q| < (2 : α) ^ (max (Int.log 2 |q|) (-126) + 1) := by
  have h := Int.lt_zpow_succ_log_self (b := 2) (by norm_num) |q|
  have h' : |q| < (2 : α) ^ (Int.log 2 |q| + 1) := by simpa using h
  refine lt_of_lt_of_le h' ?_
  apply zpow_le_zpow_right₀ (by norm_num)
  have := le_max_left (Int.log 2 |q|) (-126)
  omega

theorem binade_lower [LinearOrderedField α] [FloorRing α] (q : α) (hq : q ≠ 0)
    (hlog : -126 ≤ Int.log 2 |q|) :
    (2 : α) ^ (max (Int.log 2 |q|) (-126)) ≤ |q| := by
  rw [max_eq_left hlog]
  have h := Int.zpow_log_le_self (b := 2) (by norm_num) (abs_pos.mpr hq)
  simpa using h

theorem roundHalfEven_neg [LinearOrderedField α] [FloorRing α] (a : α) :
    roundHalfEven (-a) = -roundHalfEven a := by
  by_cases hint : ((⌊a⌋ : ℤ) : α) = a
  · rw [← hint]
    have : -((⌊a⌋ : ℤ) : α) = ((-⌊a⌋ : ℤ) : α) := by push_cast; rfl
    rw [this, roundHalfEven_intCast, roundHalfEven_intCast]
  · have h1 : ((⌊a⌋ : ℤ) : α) < a := lt_of_le_of_ne (Int.floor_le a) hint
    have h2 := Int.lt_floor_add_one a
    have hfl : ⌊-a⌋ = -⌊a⌋ - 1 := by
      rw [Int.floor_eq_iff]
      push_cast
      constructor <;> linarith
    unfold roundHalfEven
    rw [hfl]
    push_cast
    split_ifs <;> first | omega | (exfalso; linarith)

theorem binary32_neg [LinearOrderedField α] [FloorRing α] (q : α) :
    binary32 (-q) = -binary32 q := by
  unfold binary32
  rw [abs_neg, neg_div, roundHalfEven_neg]
  push_cast
  ring

/-- Rounding on a grid of step `u` keeps a value between two grid points. -/
theorem round_grid_bounds [LinearOrderedField α] [FloorRing α] (x u : α) (hu : 0 < u)
    (lo hi : ℤ) (h1 : (lo : α) * u ≤ x) (h2 : x ≤ (hi : α) * u) :
    (lo : α) * u ≤ (roundHalfEven (x / u) : α) * u ∧
      (roundHalfEven (x / u) : α) * u ≤ (hi : α) * u := by
  have a : (lo : α) ≤ x / u := (le_div_iff₀ hu).mpr h1
  have b : x / u ≤ (hi : α) := (div_le_iff₀ hu).mpr h2
  have a' := roundHalfEven_mono a
  have b' := roundHalfEven_mono b
  rw [roundHalfEven_intCast] at a' b'
  constructor
  · exact mul_le_mul_of_nonneg_right (by exact_mod_cast a') hu.le
  · exact mul_le_mul_of_nonneg_right (by exact_mod_cast b') hu.le

theorem grid_top [LinearOrderedField α] (e : ℤ) :
    ((16777216 : ℤ) : α) * (2 : α) ^ (e - 23) = (2 : α) ^ (e + 1) := by
  have h : (2 : α) ^ (e + 1) = (2 : α) ^ (24 : ℤ) * (2 : α) ^ (e - 23) := by
    rw [← zpow_add₀ (by norm_num : (2 : α) ≠ 0)]
    congr 1
    ring
  rw [h]
  norm_num

theorem grid_bot [LinearOrderedField α] (e : ℤ) :
    ((8388608 : ℤ) : α) * (2 : α) ^ (e - 23) = (2 : α) ^ e := by
  have h : (2 : α) ^ e = (2 : α) ^ (23 : ℤ) * (2 : α) ^ (e - 23) := by
    rw [← zpow_add₀ (by norm_num : (2 : α) ≠ 0)]
    congr 1
    ring
  rw [h]
  norm_num

/-- A non-negative value rounds into `[0, 2^(e+1)]`, `e` its exponent. -/
theorem binary32_nonneg_le [LinearOrderedField α] [FloorRing α] (q : α) (hq : 0 ≤ q) :
    0 ≤ binary32 q ∧ binary32 q ≤ (2 : α) ^ (max (Int.log 2 |q|) (-126) + 1) := by
  have hup := binade_upper q
  rw [abs_of_nonneg hq] at hup
  have h := round_grid_bounds q ((2 : α) ^ (max (Int.log 2 |q|) (-126) - 23))
    (two_zpow_pos _) 0 16777216 (by simpa using hq) (by rw [grid_top]; rw [abs_of_nonneg hq]; exact hup.le)
  rw [grid_top] at h
  constructor
  · simpa [binary32] using h.1
  · exact h.2

/-- A positive value whose exponent is not clamped rounds to at least `2^e`. -/
theorem binary32_ge_lower [LinearOrderedField α] [FloorRing α] (q : α) (hq : 0 < q)
    (hlog : -126 ≤ Int.log 2 |q|) :
    (2 : α) ^ (max (Int.log 2 |q|) (-126)) ≤ binary32 q := by
  have hlo := binade_lower q hq.ne' hlog
  have hup := binade_upper q
  rw [abs_of_pos hq] at hlo hup
  have h := round_grid_bounds q ((2 : α) ^ (max (Int.log 2 |q|) (-126) - 23))
    (two_zpow_pos _) 8388608 16777216 (by rw [grid_bot, abs_of_pos hq]; exact hlo)
    (by rw [grid_top, abs_of_pos hq]; exact hup.le)
  rw [grid_bot] at h
  exact h.1

theorem binary32_mono_pos [LinearOrderedField α] [FloorRing α] (x y : α) (hx : 0 < x)
    (hxy : x ≤ y) : binary32 x ≤ binary32 y := by
  have hy : 0 < y := lt_of_lt_of_le hx hxy
  have hlog : Int.log 2 |x| ≤ Int.log 2 |y| := by
    rw [abs_of_pos hx, abs_of_pos hy]
    exact Int.log_mono_right hx hxy
  have he : max (Int.log 2 |x|) (-126) ≤ max (Int.log 2 |y|) (-126) :=
    max_le_max hlog le_rfl
  rcases eq_or_lt_of_le he with heq | hlt
  · unfold binary32
    rw [heq]
    apply mul_le_mul_of_nonneg_right _ (two_zpow_pos _).le
    have : x / (2 : α) ^ (max (Int.log 2 |y|) (-126) - 23) ≤
        y / (2 : α) ^ (max (Int.log 2 |y|) (-126) - 23) :=
      div_le_div_of_nonneg_right hxy (two_zpow_pos _).le
    exact_mod_cast roundHalfEven_mono this
  · have hylog : -126 ≤ Int.log 2 |y| := by
      by_contra hcon
      have h1 : max (Int.log 2 |y|) (-126) = -126 := max_eq_right (by omega)
      have h2 := le_max_right (Int.log 2 |x|) (-126)
      omega
    have a := (binary32_nonneg_le x hx.le).2
    have b := binary32_ge_lower y hy hylog
    have c : (2 : α) ^ (max (Int.log 2 |x|) (-126) + 1) ≤
        (2 : α) ^ (max (Int.log 2 |y|) (-126)) :=
      zpow_le_zpow_right₀ (by norm_num) (by omega)
    exact le_trans a (le_trans c b)

/-- The rounding `binary32` is monotone. -/
theorem binary32_mono [LinearOrderedField α] [FloorRing α] : Monotone (binary32 : α → α) := by
  intro x y hxy
  rcases lt_trichotomy 0 x with hx | hx | hx
  · exact binary32_mono_pos x y hx hxy
  · subst hx
    rw [binary32_zero]
    exact (binary32_nonneg_le y hxy).1
  · rcases le_or_lt 0 y with hy | hy
    · have a := (binary32_nonneg_le y hy).1
      have b := (binary32_nonneg_le (-x) (by linarith)).1
      rw [binary32_neg] at b
      linarith
    · have h := binary32_mono_pos (-y) (-x) (by linarith) (by linarith)
      rw [binary32_neg, binary32_neg] at h
      linarith

/-- The rounding `binary32` leaves the binary32 values unchanged. -/
theorem binary32_representable [LinearOrderedField α] [FloorRing α] (m k : ℤ)
    (hm : |m| < 16777216) (hk : -149 ≤ k) :
    binary32 ((m : α) * (2 : α) ^ k) = (m : α) * (2 : α) ^ k := by
  by_cases hm0 : m = 0
  · subst hm0
    simp [binary32_zero]
  have hq : (m : α) * (2 : α) ^ k ≠ 0 :=
    mul_ne_zero (by exact_mod_cast hm0) (two_zpow_pos k).ne'
  have habs : |(m : α) * (2 : α) ^ k| = (|m| : ℤ) * (2 : α) ^ k := by
    have h2 : |(2 : α) ^ k| = (2 : α) ^ k := abs_of_pos (two_zpow_pos k)
    rw [abs_mul, h2]
    push_cast
    rfl
  -- the exponent is below 24 + k
  have hlt : Int.log 2 |(m : α) * (2 : α) ^ k| < 24 + k := by
    rw [← Int.lt_zpow_iff_log_lt (by norm_num) (abs_pos.mpr hq), habs]
    have h1 : ((|m| : ℤ) : α) < (16777216 : α) := by exact_mod_cast hm
    have h2 : (2 : α) ^ (24 + k) = (16777216 : α) * (2 : α) ^ k := by
      rw [zpow_add₀ (by norm_num : (2 : α) ≠ 0)]
      norm_num
    simp only [Nat.cast_ofNat]
    rw [h2]
    exact mul_lt_mul_of_pos_right h1 (two_zpow_pos k)
  have hj : max (Int.log 2 |(m : α) * (2 : α) ^ k|) (-126) - 23 ≤ k := by
    rcases max_cases (Int.log 2 |(m : α) * (2 : α) ^ k|) (-126) with ⟨h, _⟩ | ⟨h, _⟩ <;>
      rw [h] <;> omega
  unfold binary32
  generalize max (Int.log 2 |(m : α) * (2 : α) ^ k|) (-126) - 23 = E at hj ⊢
  obtain ⟨j, hjk⟩ := Int.le.dest hj
  have hpow : (2 : α) ^ k = (2 : α) ^ E * (2 : α) ^ j := by
    rw [← hjk, zpow_add₀ (by norm_num : (2 : α) ≠ 0), zpow_natCast]
  have hdiv : (m : α) * (2 : α) ^ k / (2 : α) ^ E = ((m * 2 ^ j : ℤ) : α) := by
    rw [hpow]
    push_cast
    have := (two_zpow_pos E : (0 : α) < (2 : α) ^ E).ne'
    field_simp
    ring
  rw [hdiv, roundHalfEven_intCast, hpow]
  push_cast
  ring

theorem isRounding_id [LinearOrderedField α] : IsRounding (id : α → α) :=
  ⟨monotone_id, fun _ _ _ _ => rfl⟩

theorem isRounding_binary32 [LinearOrderedField α] [FloorRing α] :
    IsRounding (binary32 : α → α) :=
  ⟨binary32_mono, binary32_representable⟩

theorem roundHalfEven_between [LinearOrderedField α] [FloorRing α] (q : α) (n : ℤ)
    (h1 : (n : α) - 1 / 2 < q) (h2 : q < (n : α) + 1 / 2) : roundHalfEven q = n := by
  apply roundHalfEven_of_near
  have : |q - (n : α)| < 1 / 2 := abs_lt.mpr ⟨by linarith, by linarith⟩
  linarith

/-- A rounding leaves the integers below 2^24 in absolute value unchanged. -/
theorem IsRounding.int [LinearOrderedField α] {fl : α → α} (h : IsRounding fl) (n : ℤ)
    (hn : |n| < 16777216) : fl (n : α) = (n : α) := by
  have := h.2 n 0 hn (by norm_num)
  simpa using this

/-- A rounding leaves the halves of the integers below 2^24 unchanged. -/
theorem IsRounding.half [LinearOrderedField α] {fl : α → α} (h : IsRounding fl) (n : ℤ)
    (hn : |n| < 16777216) : fl ((n : α) / 2) = (n : α) / 2 := by
  have := h.2 n (-1) hn (by norm_num)
  simpa [div_eq_mul_inv] using this

theorem IsRounding.zero [LinearOrderedField α] {fl : α → α} (h : IsRounding fl) :
    fl 0 = 0 := by
  simpa using h.int 0 (by norm_num)

theorem IsRounding.nonneg [LinearOrderedField α] {fl : α → α} (h : IsRounding fl) (q : α)
    (hq : 0 ≤ q) : 0 ≤ fl q := by
  have := h.1 hq
  rwa [h.zero] at this

theorem IsRounding.nonpos [LinearOrderedField α] {fl : α → α} (h : IsRounding fl) (q : α)
    (hq : q ≤ 0) : fl q ≤ 0 := by
  have := h.1 hq
  rwa [h.zero] at this

end RoundingLemmas

/-! ## Lemmas on the engine -/

section Lemmas

variable {α : Type}

theorem getWindowSize_some (e : RenderingEngine α) :
    getWindowSize (some e) = .ok e._getWindowSize := rfl

theorem getWindowSize_none :
    getWindowSize (none : Option (RenderingEngine α)) = .error Fault.abort := rfl

/-- The star pushed at iteration `i` for a window without a zero dimension. -/
theorem generateStar_ok [LinearOrderedField α] (fl : α → α) (size : v2u32)
    (scale_x scale_y : α) (rand : ℕ → ℕ) (i : ℕ)
    (hX : size.X ≠ 0) (hY : size.Y ≠ 0) :
    generateStar fl size scale_x scale_y rand i =
      .ok ⟨fl (fl ((rand (3 * i) % size.X : ℕ) : α) * scale_x),
           fl (fl ((rand (3 * i + 1) % size.Y : ℕ) : α) * scale_y),
           fl (fl ((rand (3 * i + 2) % 8 + 4 : ℕ) : α) * fl 0.0004)⟩ := by
  simp [generateStar, hX, hY]

/-- The loop runs to its end for a window without a zero dimension and pushes
one star per iteration, in order. -/
theorem generateLoop_ok [LinearOrderedField α] (fl : α → α) (size : v2u32)
    (scale_x scale_y : α) (rand : ℕ → ℕ)
    (hX : size.X ≠ 0) (hY : size.Y ≠ 0) (n i : ℕ) (stars : List (vector3d α)) :
    generateLoop fl size scale_x scale_y rand n i stars =
      (stars ++ (List.range' i n).map (fun j =>
          (⟨fl (fl ((rand (3 * j) % size.X : ℕ) : α) * scale_x),
            fl (fl ((rand (3 * j + 1) % size.Y : ℕ) : α) * scale_y),
            fl (fl ((rand (3 * j + 2) % 8 + 4 : ℕ) : α) * fl 0.0004)⟩ : vector3d α)),
        none) := by
  induction n generalizing i stars with
  | zero => simp [generateLoop]
  | succ n ih =>
    rw [generateLoop, generateStar_ok fl size scale_x scale_y rand i hX hY]
    simp only [ih, List.range'_succ, List.map_cons, List.append_assoc, List.singleton_append]

/-- The loop faults at once when a window dimension is zero. -/
theorem generateLoop_zero [LinearOrderedField α] (fl : α → α) (size : v2u32)
    (scale_x scale_y : α) (rand : ℕ → ℕ)
    (h : size.X = 0 ∨ size.Y = 0) (n i : ℕ) (stars : List (vector3d α)) :
    generateLoop fl size scale_x scale_y rand (n + 1) i stars =
      (stars, some Fault.undefined) := by
  have hs : generateStar fl size scale_x scale_y rand i = .error Fault.undefined := by
    unfold generateStar
    rcases h with h | h
    · simp [h]
    · by_cases hX : size.X = 0 <;> simp [hX, h]
  rw [generateLoop, hs]

/-- The result of `generateMenuStars` with a live singleton whose window has no
zero dimension. -/
theorem generateMenuStars_ok [LinearOrderedField α] (fl : α → α) (s : RenderingEngine α)
    (rand : ℕ → ℕ) (self : RenderingEngine α)
    (hX : s._getWindowSize.X ≠ 0) (hY : s._getWindowSize.Y ≠ 0) :
    generateMenuStars fl (some s) rand self =
      ({ self with m_menu_stars := (List.range' 0 96).map (fun j =>
          (⟨fl (fl ((rand (3 * j) % s._getWindowSize.X : ℕ) : α) *
              fl (1 / fl (s._getWindowSize.X : α))),
            fl (fl ((rand (3 * j + 1) % s._getWindowSize.Y : ℕ) : α) *
              fl (1 / fl (s._getWindowSize.Y : α))),
            fl (fl ((rand (3 * j + 2) % 8 + 4 : ℕ) : α) * fl 0.0004)⟩ : vector3d α)) },
        none) := by
  simp only [generateMenuStars, getWindowSize_some]
  rw [generateLoop_ok _ _ _ _ _ hX hY]
  simp

/-- The result of `generateMenuStars` with a live singleton whose window has a
zero dimension: the collection is cleared and the first remainder faults. -/
theorem generateMenuStars_zero [LinearOrderedField α] (fl : α → α) (s : RenderingEngine α)
    (rand : ℕ → ℕ) (self : RenderingEngine α)
    (h : s._getWindowSize.X = 0 ∨ s._getWindowSize.Y = 0) :
    generateMenuStars fl (some s) rand self =
      ({ self with m_menu_stars := [] }, some Fault.undefined) := by
  simp only [generateMenuStars, getWindowSize_some]
  rw [generateLoop_zero _ _ _ _ _ h]

theorem to_s32_of_nonneg [LinearOrderedField α] [FloorRing α] (f : α) (h : 0 ≤ f) :
    to_s32 f = ⌊f⌋ := by
  simp [to_s32, h]

theorem to_s32_of_nonpos [LinearOrderedField α] [FloorRing α] (f : α) (h : f ≤ 0) :
    to_s32 f ≤ 0 := by
  unfold to_s32
  split_ifs with h0
  · have : f = 0 := le_antisymm h h0
    rw [this]; simp
  · exact Int.ceil_le.mpr (by simpa using h)

/-- A value in the range of `u32` is converted to its integer part. -/
theorem to_u32_eq_floor [LinearOrderedField α] [FloorRing α] (f : α) (h0 : 0 ≤ f)
    (h1 : f < 4294967296) : ((to_u32 f : ℕ) : ℤ) = ⌊f⌋ := by
  have hlo : (0 : ℤ) ≤ ⌊f⌋ := Int.floor_nonneg.mpr h0
  have hhi : ⌊f⌋ < 4294967296 := by
    have : ((⌊f⌋ : ℤ) : α) < ((4294967296 : ℤ) : α) := by
      have := Int.floor_le f
      push_cast
      linarith
    exact_mod_cast this
  rw [to_u32, to_s32_of_nonneg f h0, Int.emod_eq_of_lt hlo hhi, Int.toNat_of_nonneg hlo]

/-- The range of the local `brightness` for a sine with values in [-1, 1]. -/
theorem starBrightness_bounds [LinearOrderedField α] (fl : α → α) (hfl : IsRounding fl)
    (sin : α → α) (hsin : ∀ t, -1 ≤ sin t ∧ sin t ≤ 1) (star_time : α) (x y : ℤ) :
    0 ≤ starBrightness fl sin star_time x y ∧ starBrightness fl sin star_time x y ≤ 128 := by
  obtain ⟨h1, h2⟩ := hsin (fl (star_time + starSeed fl x y))
  have hm1 : fl (-1 / 2) = -1 / 2 := by
    simpa using hfl.half (-1) (by norm_num)
  have hp1 : fl (1 / 2) = 1 / 2 := by
    simpa using hfl.half 1 (by norm_num)
  have h1' : fl 1 = 1 := by
    simpa using hfl.int 1 (by norm_num)
  have h128 : fl 128 = 128 := by
    simpa using hfl.int 128 (by norm_num)
  -- the half of the sine
  have a1 : -1 / 2 ≤ fl (sin (fl (star_time + starSeed fl x y)) / 2) := by
    rw [← hm1]
    exact hfl.1 (by linarith)
  have a2 : fl (sin (fl (star_time + starSeed fl x y)) / 2) ≤ 1 / 2 := by
    rw [← hp1]
    exact hfl.1 (by linarith)
  -- shifted into [0, 1]
  have b1 : 0 ≤ fl (fl (sin (fl (star_time + starSeed fl x y)) / 2) + 0.5) :=
    hfl.nonneg _ (by norm_num; linarith)
  have b2 : fl (fl (sin (fl (star_time + starSeed fl x y)) / 2) + 0.5) ≤ 1 := by
    rw [← h1']
    exact hfl.1 (by norm_num; linarith)
  unfold starBrightness
  constructor
  · exact hfl.nonneg _ (by positivity)
  · exact le_trans (hfl.1 (by linarith)) (le_of_eq h128)

/-- The alpha argument of a drawn star for a sine with values in [-1, 1]. -/
theorem drawStar_alpha_bounds [LinearOrderedField α] [FloorRing α] (fl : α → α)
    (hfl : IsRounding fl) (sin : α → α)
    (hsin : ∀ t, -1 ≤ sin t ∧ sin t ≤ 1) (star_time : α) (x y : ℤ) :
    (64 ≤ fl (starBrightness fl sin star_time x y + 64) ∧
      fl (starBrightness fl sin star_time x y + 64) ≤ 192) ∧
    ((to_u32 (fl (starBrightness fl sin star_time x y + 64)) : ℕ) : ℤ) =
        ⌊fl (starBrightness fl sin star_time x y + 64)⌋ ∧
      64 ≤ to_u32 (fl (starBrightness fl sin star_time x y + 64)) ∧
      to_u32 (fl (starBrightness fl sin star_time x y + 64)) ≤ 192 := by
  obtain ⟨h1, h2⟩ := starBrightness_bounds fl hfl sin hsin star_time x y
  have h64 : fl 64 = 64 := by
    simpa using hfl.int 64 (by norm_num)
  have h192 : fl 192 = 192 := by
    simpa using hfl.int 192 (by norm_num)
  have c1 : 64 ≤ fl (starBrightness fl sin star_time x y + 64) :=
    le_trans (ge_of_eq h64) (hfl.1 (by linarith))
  have c2 : fl (starBrightness fl sin star_time x y + 64) ≤ 192 :=
    le_trans (hfl.1 (by linarith)) (le_of_eq h192)
  have he := to_u32_eq_floor (fl (starBrightness fl sin star_time x y + 64))
    (by linarith) (by linarith)
  have hlo : (64 : ℤ) ≤ ⌊fl (starBrightness fl sin star_time x y + 64)⌋ := by
    rw [Int.le_floor]
    push_cast
    exact c1
  have hhi : ⌊fl (starBrightness fl sin star_time x y + 64)⌋ ≤ (192 : ℤ) := by
    have : ((⌊fl (starBrightness fl sin star_time x y + 64)⌋ : ℤ) : α) ≤ ((192 : ℤ) : α) := by
      have := Int.floor_le (fl (starBrightness fl sin star_time x y + 64))
      push_cast
      linarith
    exact_mod_cast this
  refine ⟨⟨c1, c2⟩, he, ?_, ?_⟩
  · have : (64 : ℤ) ≤ ((to_u32 (fl (starBrightness fl sin star_time x y + 64)) : ℕ) : ℤ) := by
      rw [he]; exact hlo
    exact_mod_cast this
  · have : ((to_u32 (fl (starBrightness fl sin star_time x y + 64)) : ℕ) : ℤ) ≤ (192 : ℤ) := by
      rw [he]; exact hhi
    exact_mod_cast this

/-- Every draw call of `drawMenuStars` is the loop body run on a star of the
collection the call leaves behind, at the accumulator value it leaves behind
and at the window size of the singleton. -/
theorem drawMenuStars_calls [LinearOrderedField α] [FloorRing α] (fl : α → α) (sin : α → α)
    (s_singleton : Option (RenderingEngine α)) (rand : ℕ → ℕ) (self : RenderingEngine α)
    (star_time : α) (driver : Option IVideoDriver) (dtime : α) (d : DrawCall)
    (hd : d ∈ (drawMenuStars fl sin s_singleton rand self star_time driver dtime).calls) :
    ∃ window_size star, getWindowSize s_singleton = .ok window_size ∧
      star ∈ (drawMenuStars fl sin s_singleton rand self star_time driver
        dtime).self.m_menu_stars ∧
      d = drawStar fl sin
            (drawMenuStars fl sin s_singleton rand self star_time driver dtime).star_time
            window_size star := by
  cases hen : self.m_menu_stars_enabled
  · simp [drawMenuStars, hen] at hd
  · cases driver with
    | none => simp [drawMenuStars, hen] at hd
    | some drv =>
      simp only [drawMenuStars, hen, Bool.not_true, Bool.false_eq_true, if_false] at hd ⊢
      split at hd
      · simp at hd
      · split at hd
        · simp at hd
        · rename_i hg ws hws
          simp only [List.mem_map] at hd
          obtain ⟨star, hs, rfl⟩ := hd
          exact ⟨ws, star, hws, hs, rfl⟩

/-- The accumulator is advanced on every path of `drawMenuStars`. -/
theorem drawMenuStars_star_time [LinearOrderedField α] [FloorRing α] (fl : α → α)
    (sin : α → α)
    (s_singleton : Option (RenderingEngine α)) (rand : ℕ → ℕ) (self : RenderingEngine α)
    (star_time : α) (driver : Option IVideoDriver) (dtime : α) :
    (drawMenuStars fl sin s_singleton rand self star_time driver dtime).star_time =
      advanceStarTime fl star_time dtime := by
  cases hen : self.m_menu_stars_enabled
  · simp [drawMenuStars, hen]
  · cases driver with
    | none => simp [drawMenuStars, hen]
    | some drv =>
      simp only [drawMenuStars, hen, Bool.not_true, Bool.false_eq_true, if_false]
      generalize (if self.m_menu_stars.isEmpty = true
        then generateMenuStars fl s_singleton rand self else (self, none)) = gen
      rcases gen with ⟨e, _ | f⟩
      · cases getWindowSize s_singleton <;> rfl
      · rfl

/-- The early returns of `drawMenuStars`. -/
theorem drawMenuStars_off [LinearOrderedField α] [FloorRing α] (fl : α → α) (sin : α → α)
    (s_singleton : Option (RenderingEngine α)) (rand : ℕ → ℕ) (self : RenderingEngine α)
    (star_time : α) (driver : Option IVideoDriver) (dtime : α)
    (h : driver = none ∨ self.m_menu_stars_enabled = false) :
    drawMenuStars fl sin s_singleton rand self star_time driver dtime =
      ⟨self, advanceStarTime fl star_time dtime, [], none⟩ := by
  unfold drawMenuStars
  rcases h with h | h
  · subst h
    split <;> rfl
  · simp [h]

/-- The drawing path of `drawMenuStars` over a collection that is not empty. -/
theorem drawMenuStars_cached [LinearOrderedField α] [FloorRing α] (fl : α → α) (sin : α → α)
    (s : RenderingEngine α) (rand : ℕ → ℕ) (self : RenderingEngine α)
    (star_time : α) (drv : IVideoDriver) (dtime : α)
    (hen : self.m_menu_stars_enabled = true) (hne : self.m_menu_stars ≠ []) :
    drawMenuStars fl sin (some s) rand self star_time (some drv) dtime =
      ⟨self, advanceStarTime fl star_time dtime,
        self.m_menu_stars.map
          (drawStar fl sin (advanceStarTime fl star_time dtime) s._getWindowSize),
        none⟩ := by
  have he : self.m_menu_stars.isEmpty = false := by
    cases hl : self.m_menu_stars with
    | nil => exact absurd hl hne
    | cons a l => rfl
  simp [drawMenuStars, hen, he, getWindowSize_some]

/-- The drawing path of `drawMenuStars` over an empty collection, in a window
without a zero dimension. -/
theorem drawMenuStars_fresh [LinearOrderedField α] [FloorRing α] (fl : α → α) (sin : α → α)
    (s : RenderingEngine α) (rand : ℕ → ℕ) (self : RenderingEngine α)
    (star_time : α) (drv : IVideoDriver) (dtime : α)
    (hen : self.m_menu_stars_enabled = true) (hempty : self.m_menu_stars = [])
    (hX : s._getWindowSize.X ≠ 0) (hY : s._getWindowSize.Y ≠ 0) :
    drawMenuStars fl sin (some s) rand self star_time (some drv) dtime =
      ⟨(generateMenuStars fl (some s) rand self).1, advanceStarTime fl star_time dtime,
        (generateMenuStars fl (some s) rand self).1.m_menu_stars.map
          (drawStar fl sin (advanceStarTime fl star_time dtime) s._getWindowSize),
        none⟩ := by
  have he : self.m_menu_stars.isEmpty = true := by
    rw [hempty]; rfl
  have hg : (generateMenuStars fl (some s) rand self).2 = none := by
    rw [generateMenuStars_ok fl s rand self hX hY]
  simp [drawMenuStars, hen, he, getWindowSize_some, hg]

/-- The drawing path of `drawMenuStars` over an empty collection, in a window
with a zero dimension: generation faults, nothing is drawn. -/
theorem drawMenuStars_zero [LinearOrderedField α] [FloorRing α] (fl : α → α) (sin : α → α)
    (s : RenderingEngine α) (rand : ℕ → ℕ) (self : RenderingEngine α)
    (star_time : α) (drv : IVideoDriver) (dtime : α)
    (hen : self.m_menu_stars_enabled = true) (hempty : self.m_menu_stars = [])
    (h : s._getWindowSize.X = 0 ∨ s._getWindowSize.Y = 0) :
    drawMenuStars fl sin (some s) rand self star_time (some drv) dtime =
      ⟨{ self with m_menu_stars := [] }, advanceStarTime fl star_time dtime, [],
        some Fault.undefined⟩ := by
  have he : self.m_menu_stars.isEmpty = true := by
    rw [hempty]; rfl
  simp [drawMenuStars, hen, he, generateMenuStars_zero fl s rand self h]

theorem M_PI_two_nonneg [LinearOrderedField α] : (0 : α) ≤ M_PI * 2 := by
  unfold M_PI
  positivity

/-- The accumulator never leaves the update above `M_PI * 2`. -/
theorem advanceStarTime_le [LinearOrderedField α] (fl : α → α) (star_time dtime : α) :
    advanceStarTime fl star_time dtime ≤ M_PI * 2 := by
  unfold advanceStarTime
  by_cases h : fl (star_time + dtime) > M_PI * 2
  · simp only [h, if_true]
    exact M_PI_two_nonneg
  · simp only [h, if_false]
    exact not_lt.mp h

/-- The accumulator stays at most `M_PI * 2` along a run of calls. -/
theorem runFrames_le [LinearOrderedField α] [FloorRing α] (fl : α → α) (sin : α → α)
    (frames : List (Frame α)) (self : RenderingEngine α) (star_time : α)
    (h : star_time ≤ M_PI * 2) : (runFrames fl sin frames self star_time).2 ≤ M_PI * 2 := by
  induction frames generalizing self star_time with
  | nil => exact h
  | cons f fs ih =>
    have hstep : (drawMenuStars fl sin f.s_singleton f.rand self star_time f.driver
        f.dtime).star_time ≤ M_PI * 2 := by
      rw [drawMenuStars_star_time]
      exact advanceStarTime_le _ _ _
    rw [runFrames]
    cases hf : (drawMenuStars fl sin f.s_singleton f.rand self star_time f.driver
        f.dtime).fault with
    | none => exact ih _ _ hstep
    | some e => exact hstep

/-- The `double` constant `M_PI` lies below π. -/
theorem M_PI_lt_pi : (M_PI : ℝ) < Real.pi := by
  have h := Real.pi_gt_d20
  have h2 : (M_PI : ℝ) ≤ 3.14159265358979323846 := by
    unfold M_PI
    norm_num
  linarith

/-- In binary32 a sum above 2π is rounded to a value above `M_PI * 2`: the
least binary32 value above the midpoint below 2π is 13176795 / 2^21. -/
theorem binary32_above_two_pi (q : ℝ) (hq : 2 * Real.pi < q) :
    (M_PI * 2 : ℝ) < binary32 q := by
  have hc : (62831853 / 10000000 : ℝ) ≤ q := by
    have := Real.pi_gt_d20
    norm_num at this
    linarith
  have hmono := binary32_mono hc
  have hev : binary32 (62831853 / 10000000 : ℝ) = 13176795 / 2097152 := by
    have hn : roundHalfEven ((62831853 / 10000000 : ℝ) / (2 : ℝ) ^ ((2 : ℤ) - 23)) =
        13176795 := by
      apply roundHalfEven_between <;> norm_num
    rw [binary32_eval (62831853 / 10000000 : ℝ) 2 13176795 (by norm_num)
      (by rw [abs_of_pos (by norm_num)]; norm_num)
      (by rw [abs_of_pos (by norm_num)]; norm_num) hn]
    norm_num
  rw [hev] at hmono
  have : (M_PI * 2 : ℝ) < 13176795 / 2097152 := by
    unfold M_PI
    norm_num
  linarith

/-- The code's brightness in exact arithmetic is the specification's formula. -/
theorem starBrightness_eq_spec [LinearOrderedField α] (sin : α → α) (t : α) (x y : ℤ) :
    starBrightness id sin t x y = specBrightness sin t x y := by
  unfold starBrightness specBrightness starSeed
  simp only [id]
  rw [add_assoc]

/-- A normalized coordinate `k / W` with `k < W` lies in [0, 1) and is mapped
back to `k` by the reconstruction `(s32)(c * W)`, in exact arithmetic. -/
theorem normalized_roundtrip [LinearOrderedField α] [FloorRing α] (W k : ℕ) (hW : W ≠ 0)
    (hk : k < W) :
    0 ≤ (k : α) * (1 / (W : α)) ∧ (k : α) * (1 / (W : α)) < 1 ∧
      to_s32 ((k : α) * (1 / (W : α)) * (W : α)) = (k : ℤ) := by
  have hWpos : (0 : α) < (W : α) := by
    exact_mod_cast Nat.pos_of_ne_zero hW
  have hkW : (k : α) < (W : α) := by
    exact_mod_cast hk
  have hk0 : (0 : α) ≤ (k : α) := Nat.cast_nonneg k
  refine ⟨by positivity, ?_, ?_⟩
  · rw [mul_one_div, div_lt_one hWpos]
    exact hkW
  · have he : (k : α) * (1 / (W : α)) * (W : α) = (k : α) := by
      field_simp
    rw [he, to_s32_of_nonneg _ hk0]
    exact Int.floor_natCast k

/-! ### Evaluations of `binary32` -/

theorem binary32_1 : binary32 (1 : ℚ) = 1 := by
  have := @binary32_representable ℚ _ _ 1 0 (by norm_num) (by norm_num)
  simpa using this

theorem binary32_13_half : binary32 (13 / 2 : ℚ) = 13 / 2 := by
  have := @binary32_representable ℚ _ _ 13 (-1) (by norm_num) (by norm_num)
  simpa [div_eq_mul_inv] using this

end Lemmas

/-! ## Theorems -/

section Theorems

variable {α : Type}

/-- C1: with a live singleton whose window has non-zero width and height,
whatever the engine's star collection held before, whatever values `rand()`
returns and whatever the rounding, `generateMenuStars` returns normally and
leaves exactly 96 stars in `m_menu_stars`. -/
theorem generateMenuStars_length [LinearOrderedField α] (fl : α → α)
    (s self : RenderingEngine α) (rand : ℕ → ℕ)
    (hX : s._getWindowSize.X ≠ 0) (hY : s._getWindowSize.Y ≠ 0) :
    (generateMenuStars fl (some s) rand self).2 = none ∧
      (generateMenuStars fl (some s) rand self).1.m_menu_stars.length = 96 := by
  rw [generateMenuStars_ok fl s rand self hX hY]
  simp

/-- C1, evaluated: an 800 x 600 window, regenerating over a collection that
already holds one star. -/
theorem generateMenuStars_length_witness :
    (exampleEngine._getWindowSize.X ≠ 0 ∧ exampleEngine._getWindowSize.Y ≠ 0) ∧
    (generateMenuStars binary32 (some exampleEngine) exampleRand exampleEngineOneStar).2 =
      none ∧
    (generateMenuStars binary32 (some exampleEngine) exampleRand
      exampleEngineOneStar).1.m_menu_stars.length = 96 :=
  ⟨⟨by decide, by decide⟩,
   generateMenuStars_length binary32 exampleEngine exampleEngineOneStar exampleRand
     (by decide) (by decide)⟩

/-- C5 (as stated, refuted): with a null singleton `get_shadow_renderer`
returns `nullptr`; it does not abort. -/
theorem get_shadow_renderer_null_singleton :
    get_shadow_renderer (none : Option (RenderingEngine ℚ)) = .ok none ∧
    get_shadow_renderer (none : Option (RenderingEngine ℚ)) ≠ .error Fault.abort := by
  constructor
  · rfl
  · intro h
    cases h

/-- C5 (amended): called with a null singleton, the accessors `getWindowSize`,
`get_video_driver`, `get_raw_device` and `getLastPointerType` abort through
their sanity check, and `get_shadow_renderer`, which has no sanity check,
returns `nullptr`. -/
theorem static_accessors_null_singleton :
    getWindowSize (none : Option (RenderingEngine α)) = .error Fault.abort ∧
    get_video_driver (none : Option (RenderingEngine α)) = .error Fault.abort ∧
    get_raw_device (none : Option (RenderingEngine α)) = .error Fault.abort ∧
    getLastPointerType (none : Option (RenderingEngine α)) = .error Fault.abort ∧
    get_shadow_renderer (none : Option (RenderingEngine α)) = .ok none :=
  ⟨rfl, rfl, rfl, rfl, rfl⟩

/-- C6: the time fields of an `FpsControl` are never negative, `getBusyMs`
returns the non-negative value `busy_time / 1000` rounded down and reduced
modulo 2^32, and a freshly constructed `FpsControl` has all three fields zero
and reports 0 busy milliseconds. -/
theorem FpsControl_times_nonneg (f : FpsControl) :
    (0 : ℤ) ≤ (f.busy_time : ℤ) ∧ (0 : ℤ) ≤ (f.sleep_time : ℤ) ∧
    (0 : ℤ) ≤ (f.getBusyMs : ℤ) ∧
    f.getBusyMs = (f.busy_time / 1000) % 4294967296 ∧
    (f.busy_time / 1000 < 4294967296 → f.getBusyMs = f.busy_time / 1000) ∧
    1000 * (f.busy_time / 1000) ≤ f.busy_time ∧ f.busy_time < 1000 * (f.busy_time / 1000 + 1) ∧
    FpsControl.new.last_time = 0 ∧ FpsControl.new.busy_time = 0 ∧
    FpsControl.new.sleep_time = 0 ∧ FpsControl.new.getBusyMs = 0 := by
  refine ⟨Int.natCast_nonneg _, Int.natCast_nonneg _, Int.natCast_nonneg _, rfl, ?_, ?_, ?_,
    rfl, rfl, rfl, rfl⟩
  · intro h
    exact Nat.mod_eq_of_lt h
  · exact Nat.mul_div_le _ _
  · exact Nat.lt_mul_div_succ _ (by norm_num)

/-- C2: in every rounded arithmetic (binary32 and the exact one among them),
for a sine with values in [-1, 1], every pixel position (x, y) and every
accumulator value, the brightness lies in [0, 128]; brightness + 64 lies in
[64, 192]; its conversion to the `u32` alpha argument is the integer part
itself (no reduction modulo 2^32), lies in [64, 192] and so below 256; and the
alpha argument of every rectangle `drawMenuStars` draws lies in [64, 192]. -/
theorem starBrightness_range [LinearOrderedField α] [FloorRing α] (fl : α → α)
    (hfl : IsRounding fl) (sin : α → α)
    (hsin : ∀ t, -1 ≤ sin t ∧ sin t ≤ 1) (star_time : α) (x y : ℤ) :
    (0 ≤ starBrightness fl sin star_time x y ∧ starBrightness fl sin star_time x y ≤ 128) ∧
    (64 ≤ fl (starBrightness fl sin star_time x y + 64) ∧
      fl (starBrightness fl sin star_time x y + 64) ≤ 192) ∧
    ((to_u32 (fl (starBrightness fl sin star_time x y + 64)) : ℕ) : ℤ) =
      ⌊fl (starBrightness fl sin star_time x y + 64)⌋ ∧
    (64 ≤ to_u32 (fl (starBrightness fl sin star_time x y + 64)) ∧
      to_u32 (fl (starBrightness fl sin star_time x y + 64)) ≤ 192 ∧
      to_u32 (fl (starBrightness fl sin star_time x y + 64)) < 256) ∧
    (∀ (s_singleton : Option (RenderingEngine α)) (rand : ℕ → ℕ) (self : RenderingEngine α)
        (prev : α) (driver : Option IVideoDriver) (dtime : α) (d : DrawCall),
      d ∈ (drawMenuStars fl sin s_singleton rand self prev driver dtime).calls →
        64 ≤ d.color.a ∧ d.color.a ≤ 192) := by
  obtain ⟨h0, h128⟩ := starBrightness_bounds fl hfl sin hsin star_time x y
  obtain ⟨hr, he, hlo, hhi⟩ := drawStar_alpha_bounds fl hfl sin hsin star_time x y
  refine ⟨⟨h0, h128⟩, hr, he, ⟨hlo, hhi, by omega⟩, ?_⟩
  intro s_singleton rand self prev driver dtime d hd
  obtain ⟨ws, star, _, _, rfl⟩ :=
    drawMenuStars_calls fl sin s_singleton rand self prev driver dtime d hd
  obtain ⟨_, _, hlo2, hhi2⟩ := drawStar_alpha_bounds fl hfl sin hsin
    (drawMenuStars fl sin s_singleton rand self prev driver dtime).star_time
    (to_s32 (fl (star.X * fl (ws.X : α)))) (to_s32 (fl (star.Y * fl (ws.Y : α))))
  exact ⟨hlo2, hhi2⟩

/-- C2, in binary32 at the real sine, accumulator value 1 and the pixel
(3, 4). -/
theorem starBrightness_range_witness :
    IsRounding (binary32 : ℝ → ℝ) ∧
    (∀ t : ℝ, -1 ≤ Real.sin t ∧ Real.sin t ≤ 1) ∧
    (0 ≤ starBrightness binary32 Real.sin 1 3 4 ∧
      starBrightness binary32 Real.sin 1 3 4 ≤ 128) ∧
    (64 ≤ to_u32 (binary32 (starBrightness binary32 Real.sin 1 3 4 + 64)) ∧
      to_u32 (binary32 (starBrightness binary32 Real.sin 1 3 4 + 64)) ≤ 192) :=
  ⟨isRounding_binary32,
   fun t => ⟨Real.neg_one_le_sin t, Real.sin_le_one t⟩,
   (starBrightness_range binary32 isRounding_binary32 Real.sin
      (fun t => ⟨Real.neg_one_le_sin t, Real.sin_le_one t⟩) 1 3 4).1,
   ⟨(starBrightness_range binary32 isRounding_binary32 Real.sin
      (fun t => ⟨Real.neg_one_le_sin t, Real.sin_le_one t⟩) 1 3 4).2.2.2.1.1,
    (starBrightness_range binary32 isRounding_binary32 Real.sin
      (fun t => ⟨Real.neg_one_le_sin t, Real.sin_le_one t⟩) 1 3 4).2.2.2.1.2.1⟩⟩

/-- C3: after a call of `drawMenuStars`, whatever the rounding, the arguments,
the engine and the previous accumulator value, the accumulator is at most
`M_PI * 2`, which is below 2π; it is 0 when the (rounded) previous value plus
`dtime` exceeds `M_PI * 2` and that sum otherwise; in exact arithmetic and in
binary32 it is 0 when the previous value plus `dtime` exceeds 2π; it is the
value the brightness of every rectangle of the call is computed from; and
starting from 0 it is at most 2π after any sequence of calls. -/
theorem star_time_le_two_pi (fl : ℝ → ℝ) (sin : ℝ → ℝ)
    (s_singleton : Option (RenderingEngine ℝ))
    (rand : ℕ → ℕ) (self : RenderingEngine ℝ) (star_time : ℝ)
    (driver : Option IVideoDriver) (dtime : ℝ) :
    (drawMenuStars fl sin s_singleton rand self star_time driver dtime).star_time ≤
      M_PI * 2 ∧
    (M_PI * 2 : ℝ) < 2 * Real.pi ∧
    (drawMenuStars fl sin s_singleton rand self star_time driver dtime).star_time ≤
      2 * Real.pi ∧
    (drawMenuStars fl sin s_singleton rand self star_time driver dtime).star_time =
      (if fl (star_time + dtime) > M_PI * 2 then 0 else fl (star_time + dtime)) ∧
    (drawMenuStars id sin s_singleton rand self star_time driver dtime).star_time =
      (if star_time + dtime > M_PI * 2 then 0 else star_time + dtime) ∧
    (star_time + dtime > 2 * Real.pi →
      (drawMenuStars id sin s_singleton rand self star_time driver dtime).star_time = 0) ∧
    (star_time + dtime > 2 * Real.pi →
      (drawMenuStars binary32 sin s_singleton rand self star_time driver
        dtime).star_time = 0) ∧
    (∀ d ∈ (drawMenuStars fl sin s_singleton rand self star_time driver dtime).calls,
      ∃ window_size star, d = drawStar fl sin
        (drawMenuStars fl sin s_singleton rand self star_time driver dtime).star_time
        window_size star) ∧
    (∀ (frames : List (Frame ℝ)) (e : RenderingEngine ℝ),
      (runFrames fl sin frames e 0).2 ≤ 2 * Real.pi) := by
  have hpi : (M_PI * 2 : ℝ) < 2 * Real.pi := by
    have := M_PI_lt_pi
    linarith
  have hle := advanceStarTime_le fl star_time dtime
  refine ⟨?_, hpi, ?_, ?_, ?_, ?_, ?_, ?_, ?_⟩
  · rw [drawMenuStars_star_time]; exact hle
  · rw [drawMenuStars_star_time]; linarith
  · rw [drawMenuStars_star_time]; rfl
  · rw [drawMenuStars_star_time]; rfl
  · intro h
    rw [drawMenuStars_star_time]
    have h2 : id (star_time + dtime) > M_PI * 2 := by
      simp only [id]; linarith
    simp only [advanceStarTime, h2, if_true]
  · intro h
    rw [drawMenuStars_star_time]
    have h2 : binary32 (star_time + dtime) > M_PI * 2 := binary32_above_two_pi _ h
    simp only [advanceStarTime, h2, if_true]
  · intro d hd
    obtain ⟨ws, star, _, _, h⟩ :=
      drawMenuStars_calls fl sin s_singleton rand self star_time driver dtime d hd
    exact ⟨ws, star, h⟩
  · intro frames e
    have := runFrames_le fl sin frames e 0 M_PI_two_nonneg
    linarith

/-- C4 (as stated, refuted): with the stars disabled, and likewise with a null
driver, a call with `dtime = 1` on the accumulator value 0 leaves the
accumulator at 1, not at 0; in exact arithmetic and in binary32 alike. -/
theorem drawMenuStars_noop_changes_star_time :
    ((drawMenuStars id exampleSin (some exampleEngine) exampleRand exampleEngineOff 0
        (some 7) 1).star_time = 1 ∧
      (drawMenuStars id exampleSin (some exampleEngine) exampleRand exampleEngine 0
        none 1).star_time = 1 ∧
      (drawMenuStars id exampleSin (some exampleEngine) exampleRand exampleEngineOff 0
        (some 7) 1).star_time ≠ 0) ∧
    ((drawMenuStars binary32 exampleSin (some exampleEngine) exampleRand exampleEngineOff 0
        (some 7) 1).star_time = 1 ∧
      (drawMenuStars binary32 exampleSin (some exampleEngine) exampleRand exampleEngine 0
        none 1).star_time = 1 ∧
      (drawMenuStars binary32 exampleSin (some exampleEngine) exampleRand exampleEngineOff 0
        (some 7) 1).star_time ≠ 0) := by
  have h : advanceStarTime id (0 : ℚ) 1 = 1 := by
    norm_num [advanceStarTime, M_PI]
  have hb : advanceStarTime binary32 (0 : ℚ) 1 = 1 := by
    have h1 : binary32 ((0 : ℚ) + 1) = 1 := by
      rw [zero_add, binary32_1]
    simp only [advanceStarTime, h1]
    norm_num [M_PI]
  refine ⟨⟨?_, ?_, ?_⟩, ⟨?_, ?_, ?_⟩⟩
  · rw [drawMenuStars_star_time, h]
  · rw [drawMenuStars_star_time, h]
  · rw [drawMenuStars_star_time, h]
    norm_num
  · rw [drawMenuStars_star_time, hb]
  · rw [drawMenuStars_star_time, hb]
  · rw [drawMenuStars_star_time, hb]
    norm_num

/-- C4 (amended): when the driver is null or the menu stars are disabled,
`drawMenuStars` returns normally, issues no `draw2DRectangle` call and leaves
the engine, so the star collection, unchanged; the accumulator is advanced as
in every call: it becomes `star_time + dtime`, or 0 when that exceeds
`M_PI * 2`. -/
theorem drawMenuStars_early_return [LinearOrderedField α] [FloorRing α] (fl : α → α)
    (sin : α → α)
    (s_singleton : Option (RenderingEngine α)) (rand : ℕ → ℕ) (self : RenderingEngine α)
    (star_time : α) (driver : Option IVideoDriver) (dtime : α)
    (h : driver = none ∨ self.m_menu_stars_enabled = false) :
    (drawMenuStars fl sin s_singleton rand self star_time driver dtime).calls = [] ∧
    (drawMenuStars fl sin s_singleton rand self star_time driver dtime).fault = none ∧
    (drawMenuStars fl sin s_singleton rand self star_time driver dtime).self = self ∧
    (drawMenuStars fl sin s_singleton rand self star_time driver dtime).self.m_menu_stars =
      self.m_menu_stars ∧
    (drawMenuStars fl sin s_singleton rand self star_time driver dtime).star_time =
      (if fl (star_time + dtime) > M_PI * 2 then 0 else fl (star_time + dtime)) := by
  rw [drawMenuStars_off fl sin s_singleton rand self star_time driver dtime h]
  exact ⟨rfl, rfl, rfl, rfl, rfl⟩

/-- C4 (amended), evaluated in binary32: a null driver on an engine holding one
star, the accumulator at 6 and `dtime = 1/2`. -/
theorem drawMenuStars_early_return_witness :
    ((none : Option IVideoDriver) = none ∨
      exampleEngineOneStar.m_menu_stars_enabled = false) ∧
    (drawMenuStars binary32 exampleSin (some exampleEngine) exampleRand exampleEngineOneStar 6
      none (1 / 2)).calls = [] ∧
    (drawMenuStars binary32 exampleSin (some exampleEngine) exampleRand exampleEngineOneStar 6
      none (1 / 2)).self.m_menu_stars = [⟨1 / 2, 1 / 4, 0⟩] ∧
    (drawMenuStars binary32 exampleSin (some exampleEngine) exampleRand exampleEngineOneStar 6
      none (1 / 2)).star_time = 0 := by
  have h := drawMenuStars_early_return binary32 exampleSin (some exampleEngine) exampleRand
    exampleEngineOneStar 6 none (1 / 2) (Or.inl rfl)
  refine ⟨Or.inl rfl, h.1, ?_, ?_⟩
  · rw [h.2.2.2.1]; rfl
  · rw [h.2.2.2.2]
    have h1 : binary32 ((6 : ℚ) + 1 / 2) = 13 / 2 := by
      have : (6 : ℚ) + 1 / 2 = 13 / 2 := by norm_num
      rw [this, binary32_13_half]
    rw [h1]
    norm_num [M_PI]

/-- C7: in exact arithmetic the brightness `drawMenuStars` computes is the
specification's formula `128 * (sin(t + x*12.9898 + y*78.233) / 2 + 0.5)` of
the pixel position and the accumulator alone; in every arithmetic the colour
of every rectangle a call draws is determined by the rectangle's own
upper-left corner and the accumulator value of the call, and two rectangles
with the same upper-left corner drawn at the same accumulator value have the
same colour, whatever the stars (their place in the collection, their size),
the window sizes, the engines and the other arguments of the two calls. -/
theorem starBrightness_deterministic [LinearOrderedField α] [FloorRing α] (sin : α → α) :
    (∀ (t : α) (x y : ℤ), starBrightness id sin t x y = specBrightness sin t x y) ∧
    (∀ (s_singleton : Option (RenderingEngine α)) (rand : ℕ → ℕ) (self : RenderingEngine α)
        (star_time : α) (driver : Option IVideoDriver) (dtime : α) (d : DrawCall),
      d ∈ (drawMenuStars id sin s_singleton rand self star_time driver dtime).calls →
        d.color = ⟨to_u32 (specBrightness sin
          (drawMenuStars id sin s_singleton rand self star_time driver dtime).star_time
          d.pos.x d.pos.y + 64), 255, 255, 255⟩) ∧
    (∀ (fl : α → α) (s_singleton : Option (RenderingEngine α)) (rand : ℕ → ℕ)
        (self : RenderingEngine α) (star_time : α) (driver : Option IVideoDriver)
        (dtime : α) (d : DrawCall),
      d ∈ (drawMenuStars fl sin s_singleton rand self star_time driver dtime).calls →
        d.color = ⟨to_u32 (fl (starBrightness fl sin
          (drawMenuStars fl sin s_singleton rand self star_time driver dtime).star_time
          d.pos.x d.pos.y + 64)), 255, 255, 255⟩) ∧
    (∀ (fl : α → α) (s1 s2 : Option (RenderingEngine α)) (rand1 rand2 : ℕ → ℕ)
        (self1 self2 : RenderingEngine α) (t1 t2 : α) (driver1 driver2 : Option IVideoDriver)
        (dtime1 dtime2 : α) (d1 d2 : DrawCall),
      d1 ∈ (drawMenuStars fl sin s1 rand1 self1 t1 driver1 dtime1).calls →
      d2 ∈ (drawMenuStars fl sin s2 rand2 self2 t2 driver2 dtime2).calls →
      d1.pos.x = d2.pos.x → d1.pos.y = d2.pos.y →
      (drawMenuStars fl sin s1 rand1 self1 t1 driver1 dtime1).star_time =
        (drawMenuStars fl sin s2 rand2 self2 t2 driver2 dtime2).star_time →
      d1.color = d2.color) := by
  have key : ∀ (fl : α → α) (s_singleton : Option (RenderingEngine α)) (rand : ℕ → ℕ)
      (self : RenderingEngine α) (star_time : α) (driver : Option IVideoDriver) (dtime : α)
      (d : DrawCall),
      d ∈ (drawMenuStars fl sin s_singleton rand self star_time driver dtime).calls →
        d.color = ⟨to_u32 (fl (starBrightness fl sin
          (drawMenuStars fl sin s_singleton rand self star_time driver dtime).star_time
          d.pos.x d.pos.y + 64)), 255, 255, 255⟩ := by
    intro fl s_singleton rand self star_time driver dtime d hd
    obtain ⟨ws, star, _, _, rfl⟩ :=
      drawMenuStars_calls fl sin s_singleton rand self star_time driver dtime d hd
    rfl
  refine ⟨starBrightness_eq_spec sin, ?_, key, ?_⟩
  · intro s_singleton rand self star_time driver dtime d hd
    rw [key id s_singleton rand self star_time driver dtime d hd, starBrightness_eq_spec]
    rfl
  · intro fl s1 s2 rand1 rand2 self1 self2 t1 t2 driver1 driver2 dtime1 dtime2 d1 d2
      h1 h2 hx hy ht
    rw [key fl s1 rand1 self1 t1 driver1 dtime1 d1 h1,
      key fl s2 rand2 self2 t2 driver2 dtime2 d2 h2, hx, hy, ht]

/-- C9: the rectangle drawn for a star, whatever its normalized coordinates,
the window size and the rounding, has upper-left corner (x, y) and
lower-right corner (x + size, y + size) with x, y the truncated scaled
positions and size = max(1, trunc(star.Z * window height)); its width and
height are equal and at least 1; the size is 1 when the normalized size is zero
or negative and when the window height is 0; and this holds of every rectangle
`drawMenuStars` draws. -/
theorem drawStar_square [LinearOrderedField α] [FloorRing α] (fl : α → α) (sin : α → α)
    (star_time : α) (window_size : v2u32) (star : vector3d α) :
    (drawStar fl sin star_time window_size star).pos =
      ⟨to_s32 (fl (star.X * fl (window_size.X : α))),
       to_s32 (fl (star.Y * fl (window_size.Y : α))),
       to_s32 (fl (star.X * fl (window_size.X : α))) +
         max 1 (to_s32 (fl (star.Z * fl (window_size.Y : α)))),
       to_s32 (fl (star.Y * fl (window_size.Y : α))) +
         max 1 (to_s32 (fl (star.Z * fl (window_size.Y : α))))⟩ ∧
    (drawStar fl sin star_time window_size star).pos.getWidth =
      max 1 (to_s32 (fl (star.Z * fl (window_size.Y : α)))) ∧
    (drawStar fl sin star_time window_size star).pos.getHeight =
      (drawStar fl sin star_time window_size star).pos.getWidth ∧
    1 ≤ (drawStar fl sin star_time window_size star).pos.getWidth ∧
    (star.Z ≤ 0 → (drawStar id sin star_time window_size star).pos.getWidth = 1) ∧
    (window_size.Y = 0 → (drawStar id sin star_time window_size star).pos.getWidth = 1) ∧
    (IsRounding fl → star.Z ≤ 0 →
      (drawStar fl sin star_time window_size star).pos.getWidth = 1) ∧
    (IsRounding fl → window_size.Y = 0 →
      (drawStar fl sin star_time window_size star).pos.getWidth = 1) ∧
    (∀ (s_singleton : Option (RenderingEngine α)) (rand : ℕ → ℕ) (self : RenderingEngine α)
        (prev : α) (driver : Option IVideoDriver) (dtime : α) (d : DrawCall),
      d ∈ (drawMenuStars fl sin s_singleton rand self prev driver dtime).calls →
        d.pos.getWidth = d.pos.getHeight ∧ 1 ≤ d.pos.getWidth) := by
  have hsize : ∀ z : ℤ, (if z < 1 then (1 : ℤ) else z) = max 1 z := by
    intro z
    by_cases hz : z < 1
    · rw [if_pos hz, max_eq_left (le_of_lt hz)]
    · rw [if_neg hz, max_eq_right (not_lt.mp hz)]
  have hpos : ∀ (g : α → α) (t : α) (ws : v2u32) (st : vector3d α),
      (drawStar g sin t ws st).pos =
      ⟨to_s32 (g (st.X * g (ws.X : α))), to_s32 (g (st.Y * g (ws.Y : α))),
       to_s32 (g (st.X * g (ws.X : α))) + max 1 (to_s32 (g (st.Z * g (ws.Y : α)))),
       to_s32 (g (st.Y * g (ws.Y : α))) + max 1 (to_s32 (g (st.Z * g (ws.Y : α))))⟩ := by
    intro g t ws st
    simp only [drawStar, hsize]
  have hw : ∀ (g : α → α) (t : α) (ws : v2u32) (st : vector3d α),
      (drawStar g sin t ws st).pos.getWidth = max 1 (to_s32 (g (st.Z * g (ws.Y : α)))) := by
    intro g t ws st
    rw [hpos]
    simp [rect.getWidth]
  have hh : ∀ (g : α → α) (t : α) (ws : v2u32) (st : vector3d α),
      (drawStar g sin t ws st).pos.getHeight = max 1 (to_s32 (g (st.Z * g (ws.Y : α)))) := by
    intro g t ws st
    rw [hpos]
    simp [rect.getHeight]
  have hZ : ∀ g : α → α, IsRounding g → star.Z ≤ 0 →
      (drawStar g sin star_time window_size star).pos.getWidth = 1 := by
    intro g hg hz
    rw [hw]
    have hWn : 0 ≤ g (window_size.Y : α) := hg.nonneg _ (Nat.cast_nonneg _)
    have hprod : g (star.Z * g (window_size.Y : α)) ≤ 0 :=
      hg.nonpos _ (mul_nonpos_of_nonpos_of_nonneg hz hWn)
    have hle := to_s32_of_nonpos _ hprod
    exact max_eq_left (by omega)
  have hY : ∀ g : α → α, IsRounding g → window_size.Y = 0 →
      (drawStar g sin star_time window_size star).pos.getWidth = 1 := by
    intro g hg hy
    rw [hw, hy]
    simp [hg.zero, to_s32]
  refine ⟨hpos _ _ _ _, hw _ _ _ _, ?_, ?_, hZ id isRounding_id, hY id isRounding_id,
    hZ fl, hY fl, ?_⟩
  · rw [hh, hw]
  · rw [hw]; exact le_max_left _ _
  · intro s_singleton rand self prev driver dtime d hd
    obtain ⟨ws, st, _, _, rfl⟩ :=
      drawMenuStars_calls fl sin s_singleton rand self prev driver dtime d hd
    rw [hh, hw]
    exact ⟨rfl, le_max_left _ _⟩

/-- C8 (as stated, refuted): on an empty collection in a window of width zero,
and likewise of height zero, with the stars enabled and a non-null driver,
`drawMenuStars` faults on the remainder by zero in `generateMenuStars`: the
collection does not get 96 stars and nothing is drawn. -/
theorem drawMenuStars_zero_window :
    ((drawMenuStars binary32 exampleSin (some exampleEngineZeroWidth) exampleRand
        exampleEngineZeroWidth 0 (some 7) (1 / 60)).fault = some Fault.undefined ∧
      (drawMenuStars binary32 exampleSin (some exampleEngineZeroWidth) exampleRand
        exampleEngineZeroWidth 0 (some 7) (1 / 60)).self.m_menu_stars.length = 0 ∧
      (drawMenuStars binary32 exampleSin (some exampleEngineZeroWidth) exampleRand
        exampleEngineZeroWidth 0 (some 7) (1 / 60)).calls = []) ∧
    ((drawMenuStars binary32 exampleSin (some exampleEngineZeroHeight) exampleRand
        exampleEngineZeroHeight 0 (some 7) (1 / 60)).fault = some Fault.undefined ∧
      (drawMenuStars binary32 exampleSin (some exampleEngineZeroHeight) exampleRand
        exampleEngineZeroHeight 0 (some 7) (1 / 60)).self.m_menu_stars.length = 0 ∧
      (drawMenuStars binary32 exampleSin (some exampleEngineZeroHeight) exampleRand
        exampleEngineZeroHeight 0 (some 7) (1 / 60)).calls = []) := by
  constructor
  · rw [drawMenuStars_zero binary32 exampleSin exampleEngineZeroWidth exampleRand
      exampleEngineZeroWidth 0 7 (1 / 60) rfl rfl (Or.inl rfl)]
    exact ⟨rfl, rfl, rfl⟩
  · rw [drawMenuStars_zero binary32 exampleSin exampleEngineZeroHeight exampleRand
      exampleEngineZeroHeight 0 7 (1 / 60) rfl rfl (Or.inr rfl)]
    exact ⟨rfl, rfl, rfl⟩

/-- C8 (amended): with the stars enabled, a non-null driver and a live
singleton, `drawMenuStars` (a) on an empty collection, in a window of non-zero
width and height, runs `generateMenuStars` and leaves its 96 stars in the
engine; (b) on a collection that is not empty leaves the engine exactly as it
was, whatever the current window size; and in both cases returns normally
having issued one `draw2DRectangle` call per star of the resulting collection,
in collection order. -/
theorem drawMenuStars_regeneration [LinearOrderedField α] [FloorRing α] (fl : α → α)
    (sin : α → α)
    (s : RenderingEngine α) (rand : ℕ → ℕ) (self : RenderingEngine α) (star_time : α)
    (drv : IVideoDriver) (dtime : α) (hen : self.m_menu_stars_enabled = true) :
    (self.m_menu_stars = [] → s._getWindowSize.X ≠ 0 → s._getWindowSize.Y ≠ 0 →
      (drawMenuStars fl sin (some s) rand self star_time (some drv) dtime).fault = none ∧
      (drawMenuStars fl sin (some s) rand self star_time (some drv) dtime).self =
        (generateMenuStars fl (some s) rand self).1 ∧
      (drawMenuStars fl sin (some s) rand self star_time (some drv)
        dtime).self.m_menu_stars.length = 96 ∧
      (drawMenuStars fl sin (some s) rand self star_time (some drv) dtime).calls.length = 96 ∧
      (drawMenuStars fl sin (some s) rand self star_time (some drv) dtime).calls =
        (drawMenuStars fl sin (some s) rand self star_time (some drv)
          dtime).self.m_menu_stars.map
          (drawStar fl sin
            (drawMenuStars fl sin (some s) rand self star_time (some drv) dtime).star_time
            s._getWindowSize)) ∧
    (self.m_menu_stars ≠ [] →
      (drawMenuStars fl sin (some s) rand self star_time (some drv) dtime).fault = none ∧
      (drawMenuStars fl sin (some s) rand self star_time (some drv) dtime).self = self ∧
      (drawMenuStars fl sin (some s) rand self star_time (some drv) dtime).calls.length =
        self.m_menu_stars.length ∧
      (drawMenuStars fl sin (some s) rand self star_time (some drv) dtime).calls =
        self.m_menu_stars.map
          (drawStar fl sin
            (drawMenuStars fl sin (some s) rand self star_time (some drv) dtime).star_time
            s._getWindowSize)) := by
  constructor
  · intro hempty hX hY
    have hlen := (generateMenuStars_ok fl s rand self hX hY)
    rw [drawMenuStars_fresh fl sin s rand self star_time drv dtime hen hempty hX hY]
    refine ⟨rfl, rfl, ?_, ?_, rfl⟩
    · simp [hlen]
    · simp [hlen]
  · intro hne
    rw [drawMenuStars_cached fl sin s rand self star_time drv dtime hen hne]
    refine ⟨rfl, rfl, ?_, rfl⟩
    simp

/-- C8 (amended), evaluated in binary32: the first draw in an 800 x 600 window
generates 96 stars and draws 96 rectangles; a draw over a collection of one
star in a window resized to 1024 x 768 keeps that collection and draws one
rectangle. -/
theorem drawMenuStars_regeneration_witness :
    (exampleEngine.m_menu_stars_enabled = true ∧
      exampleEngineOneStar.m_menu_stars_enabled = true) ∧
    ((drawMenuStars binary32 exampleSin (some exampleEngine) exampleRand exampleEngine 0
        (some 7) (1 / 60)).self.m_menu_stars.length = 96 ∧
      (drawMenuStars binary32 exampleSin (some exampleEngine) exampleRand exampleEngine 0
        (some 7) (1 / 60)).calls.length = 96) ∧
    ((drawMenuStars binary32 exampleSin
        (some { exampleEngine with _getWindowSize := ⟨1024, 768⟩ })
        exampleRand exampleEngineOneStar 0 (some 7) (1 / 60)).self = exampleEngineOneStar ∧
      (drawMenuStars binary32 exampleSin
        (some { exampleEngine with _getWindowSize := ⟨1024, 768⟩ })
        exampleRand exampleEngineOneStar 0 (some 7) (1 / 60)).calls.length = 1) := by
  have h1 := (drawMenuStars_regeneration binary32 exampleSin exampleEngine exampleRand
    exampleEngine 0 7 (1 / 60) rfl).1 rfl (by decide) (by decide)
  have h2 := (drawMenuStars_regeneration binary32 exampleSin
    { exampleEngine with _getWindowSize := ⟨1024, 768⟩ } exampleRand exampleEngineOneStar 0 7
    (1 / 60) rfl).2 (by simp [exampleEngineOneStar])
  exact ⟨⟨rfl, rfl⟩, ⟨h1.2.2.1, h1.2.2.2.1⟩, ⟨h2.2.1, h2.2.2.1⟩⟩

/-- In exact arithmetic the position does round-trip: in a window of non-zero
width W and height H the star generated at iteration i has X = (r0 mod W) / W
and Y = (r1 mod H) / H, and the loop of `drawMenuStars` reconstructs the corner
(r0 mod W, r1 mod H). -/
theorem star_position_roundtrip_exact [LinearOrderedField α] [FloorRing α] (sin : α → α)
    (W H : ℕ) (hW : W ≠ 0) (hH : H ≠ 0) (rand : ℕ → ℕ) (i : ℕ) (t : α) :
    ∃ star : vector3d α,
      generateStar id ⟨W, H⟩ (1 / (W : α)) (1 / (H : α)) rand i = .ok star ∧
      star.X = ((rand (3 * i) % W : ℕ) : α) * (1 / (W : α)) ∧
      star.Y = ((rand (3 * i + 1) % H : ℕ) : α) * (1 / (H : α)) ∧
      (drawStar id sin t ⟨W, H⟩ star).pos.x = ((rand (3 * i) % W : ℕ) : ℤ) ∧
      (drawStar id sin t ⟨W, H⟩ star).pos.y = ((rand (3 * i + 1) % H : ℕ) : ℤ) := by
  obtain ⟨_, _, a3⟩ := @normalized_roundtrip α _ _ W (rand (3 * i) % W) hW
    (Nat.mod_lt _ (Nat.pos_of_ne_zero hW))
  obtain ⟨_, _, b3⟩ := @normalized_roundtrip α _ _ H (rand (3 * i + 1) % H) hH
    (Nat.mod_lt _ (Nat.pos_of_ne_zero hH))
  exact ⟨_, generateStar_ok id ⟨W, H⟩ _ _ rand i hW hH, rfl, rfl, a3, b3⟩

end Theorems

end RenderingEngineSpec
